import Mathlib

/-!
Verification of the GL4U RNAseq notebook grader (rnaseq_grader.py).

The development embeds the grading core as executable Lean functions:
cell text handling and the completion classifier `has_content`, the header
regex models, the default enhanced grader `grade_notebook_enhanced`, the two
specialized variants (`grade_markdown_exercise_01`, `grade_question_answer`),
and the dispatching wrapper `grade_notebook`.  Theorems at the end settle the
behavioural claims about these functions.
-/

set_option maxRecDepth 10000

/-! ## Generic helpers over character lists

Python strings are modelled as `List Char`; every helper mirrors the exact
string primitive the source uses (`strip`, `startswith`, `in`, `find`,
`split`).
-/

/-- Pointwise function update, modelling assignment into a Python dict whose
missing keys read as the default of the codomain. -/
def updFn {α β : Type} [DecidableEq α] (f : α → β) (k : α) (v : β) : α → β :=
  fun x => if x = k then v else f x

/-- Python `s.startswith(p)` on character lists. -/
def leadsWith : List Char → List Char → Bool
  | [], _ => true
  | _ :: _, [] => false
  | p :: ps, c :: cs => p == c && leadsWith ps cs

/-- Python `needle in hay` substring test. -/
def occursIn (needle : List Char) : List Char → Bool
  | [] => leadsWith needle []
  | c :: cs => leadsWith needle (c :: cs) || occursIn needle cs

/-- Whitespace as recognised by Python `str.strip` and the `\s` regex class
(space, tab, newline, carriage return, vertical tab, form feed). -/
def isWS (c : Char) : Bool :=
  c == ' ' || c == '\t' || c == '\n' || c == '\r' || c == '\x0b' || c == '\x0c'

/-- Python `s.strip()`. -/
def trimChars (l : List Char) : List Char :=
  ((l.dropWhile isWS).reverse.dropWhile isWS).reverse

/-- Helper for `splitLines`, accumulating the current line reversed. -/
def splitLinesAux (cur : List Char) : List Char → List (List Char)
  | [] => [cur.reverse]
  | c :: rest =>
    if c == '\n' then cur.reverse :: splitLinesAux [] rest
    else splitLinesAux (c :: cur) rest

/-- Python `s.split('\n')`. -/
def splitLines (l : List Char) : List (List Char) :=
  splitLinesAux [] l

/-- Python `s.find(':')` followed by the slice `s[pos+1:]`: the characters
after the first colon, or `none` when no colon occurs. -/
def afterColon : List Char → Option (List Char)
  | [] => none
  | c :: rest => if c == ':' then some rest else afterColon rest

/-- Whether a colon occurs anywhere (`s.find(':') != -1`). -/
def containsColonB (l : List Char) : Bool :=
  l.any (· == ':')

/-- The trimmed text after the first colon, `[]` when no colon occurs. -/
def afterFirstColonTrim : List Char → List Char
  | [] => []
  | c :: rest => if c == ':' then trimChars rest else afterFirstColonTrim rest

/-- The regex fragment `\.?\s+`: an optional literal dot, then at least one
whitespace character (with the backtracking the Python engine performs). -/
def dotSpace : List Char → Bool
  | '.' :: rest =>
    match rest with
    | c :: _ => isWS c
    | [] => false
  | c :: _ => isWS c
  | [] => false

/-! ## Notebook cells and the completion classifier -/

/-- A notebook cell: `cell_type`, source fragments, outputs and the optional
execution marker, exactly the fields the grader reads. -/
structure Cell where
  cell_type : String
  source : List String := []
  outputs : List String := []
  execution_count : Option Int := none
deriving DecidableEq

/-- Python `"".join(cell.get("source", []))`. -/
def joinedSource (c : Cell) : List Char :=
  (c.source.map String.data).flatten

/-- The joined source, trimmed: `"".join(cell.get("source", [])).strip()`. -/
def cellText (c : Cell) : List Char :=
  trimChars (joinedSource c)

/-- The literal token "Question" used by the classifier. -/
def qtoken : List Char := "Question".data

/-- The completion classifier `has_content` from the source: Question-prefixed
cells are judged by the text after the first colon; code cells need non-empty
source and an output or execution marker; markdown and raw cells need
non-empty source. -/
def has_content (c : Cell) : Bool :=
  let source := cellText c
  if leadsWith qtoken source then
    match afterColon source with
    | some rest => !(trimChars rest).isEmpty
    | none => false
  else if c.cell_type == "code" then
    !source.isEmpty && (!c.outputs.isEmpty || c.execution_count.isSome)
  else if c.cell_type == "markdown" then
    !source.isEmpty
  else if c.cell_type == "raw" then
    !source.isEmpty
  else false

/-! ## Rubric configuration -/

/-- One rubric section descriptor: a Python dict whose keys may be absent.
`code_cells`/`raw_cells` select the detailed scoring branch, `points` the
plain branch, and `special` a specialized grading variant. -/
structure SectionCfg where
  name : String := ""
  code_cells : Option Nat := none
  raw_cells : Option Nat := none
  points : Option Nat := none
  special : Option String := none
deriving DecidableEq

/-- A rubric: the ordered `sections` mapping of an expected-config entry. -/
abbrev Rubric := List (String × SectionCfg)

/-- The per-notebook expected configuration passed to the graders. -/
structure ExpectedConfig where
  asset_id : String := ""
  sections : Rubric := []
deriving DecidableEq

/-- Python `key in expected_config['sections']`. -/
def keyMem (k : String) (R : Rubric) : Bool :=
  R.any (fun p => p.1 == k)

/-! ## Header line recognition

The default grader uses two dialects chosen by the asset id; the specialized
variants share one simpler pattern.  Each function models one regex from the
source, with the deterministic result its backtracking engine produces.
-/

/-- The regex `^\s*#+\s+(\d+)\.?\s+` (search anchored at the start), returning
`group(1) + "."` on success. -/
def matchMainRe (line : List Char) : Option String :=
  let l0 := line.dropWhile isWS
  if (l0.takeWhile (· == '#')).isEmpty then none
  else
    let l1 := l0.dropWhile (· == '#')
    if (l1.takeWhile isWS).isEmpty then none
    else
      let l2 := l1.dropWhile isWS
      let ds := l2.takeWhile Char.isDigit
      if ds.isEmpty then none
      else if dotSpace (l2.dropWhile Char.isDigit) then some (String.mk (ds ++ ['.']))
      else none

/-- The regex `^\s*#+\s+(\d+[a-z])\.?\s+`, returning `group(1) + "."`. -/
def matchSubReA (line : List Char) : Option String :=
  let l0 := line.dropWhile isWS
  if (l0.takeWhile (· == '#')).isEmpty then none
  else
    let l1 := l0.dropWhile (· == '#')
    if (l1.takeWhile isWS).isEmpty then none
    else
      let l2 := l1.dropWhile isWS
      let ds := l2.takeWhile Char.isDigit
      if ds.isEmpty then none
      else
        match l2.dropWhile Char.isDigit with
        | c :: rest =>
          if c.isLower && dotSpace rest then some (String.mk (ds ++ [c, '.'])) else none
        | [] => none

/-- The regex `^\s*###\s+(\d+[a-z])\.?\s+` (exactly three `#`), returning
`group(1) + "."`. -/
def matchSubRe3 (line : List Char) : Option String :=
  match line.dropWhile isWS with
  | '#' :: '#' :: '#' :: r1 =>
    if (r1.takeWhile isWS).isEmpty then none
    else
      let l2 := r1.dropWhile isWS
      let ds := l2.takeWhile Char.isDigit
      if ds.isEmpty then none
      else
        match l2.dropWhile Char.isDigit with
        | c :: rest =>
          if c.isLower && dotSpace rest then some (String.mk (ds ++ [c, '.'])) else none
        | [] => none
  | _ => none

/-- Top-level header detection of the default grader, per dialect: the
analysis dialect runs the main regex on every line; the processing dialect
first requires the stripped line to start with `#` but not `###`. -/
def parseMainLine (isA : Bool) (line : List Char) : Option String :=
  if isA then matchMainRe line
  else
    let s := trimChars line
    if leadsWith ['#'] s && !(leadsWith ['#', '#', '#'] s) then matchMainRe line else none

/-- Subsection header detection of the default grader, per dialect: the
analysis dialect runs the letter-suffixed regex on every line; the processing
dialect requires the stripped line to start with `###` and uses the
three-hash regex. -/
def parseSubLine (isA : Bool) (line : List Char) : Option String :=
  if isA then matchSubReA line
  else
    let s := trimChars line
    if leadsWith ['#', '#', '#'] s then matchSubRe3 line else none

/-- The variant regex `^#+\s*(\d+[a-z]?)\.?\s+` applied to the stripped line,
returning `group(1) + "."`; the optional letter backtracks exactly as the
Python engine does. -/
def matchVariantRe (l : List Char) : Option String :=
  if (l.takeWhile (· == '#')).isEmpty then none
  else
    let l1 := l.dropWhile (· == '#')
    let l2 := l1.dropWhile isWS
    let ds := l2.takeWhile Char.isDigit
    if ds.isEmpty then none
    else
      match l2.dropWhile Char.isDigit with
      | c :: rest =>
        if c.isLower then
          if dotSpace rest then some (String.mk (ds ++ [c, '.']))
          else if dotSpace (c :: rest) then some (String.mk (ds ++ ['.']))
          else none
        else if dotSpace (c :: rest) then some (String.mk (ds ++ ['.']))
        else none
      | [] => none

/-- One line of the variants' header scan: the raw line must start with `#`,
then the variant regex is matched against the stripped line. -/
def variantHeaderOfLine (line : List Char) : Option String :=
  if leadsWith ['#'] line then matchVariantRe (trimChars line) else none

/-- The variants' per-cell header selection: the loop breaks at the first
matching line, so the first match wins. -/
def firstVariantHeader : List (List Char) → Option String
  | [] => none
  | l :: rest =>
    match variantHeaderOfLine l with
    | some k => some k
    | none => firstVariantHeader rest

/-! ## The enhanced (default) grader -/

/-- Scan state of `grade_notebook_enhanced`: current section and subsection,
the per-section completed/total counters for code and raw cells, the missed
index lists, and the insertion-ordered key set of `missed_indices` (which in
the source doubles as the key set of the counter dicts). -/
structure EnhState where
  cur : Option String
  sub : Option String
  ccC : String → Nat
  ctC : String → Nat
  ccR : String → Nat
  ctR : String → Nat
  missC : String → List Nat
  missR : String → List Nat
  missedKeys : List String

/-- The initial enhanced scan state. -/
def enhInit : EnhState :=
  ⟨none, none, fun _ => 0, fun _ => 0, fun _ => 0, fun _ => 0, fun _ => [], fun _ => [], []⟩

/-- Section initialization: when the key is in the rubric and not yet
tracked, register it.  The zeroing of the counters in the source is a no-op
here because untracked keys already read as zero. -/
def initSec (R : Rubric) (j : String) (st : EnhState) : EnhState :=
  if keyMem j R = true ∧ j ∉ st.missedKeys then
    { st with missedKeys := st.missedKeys ++ [j] }
  else st

/-- Set the current top-level section and initialize its tracking. -/
def setMain (R : Rubric) (j : String) (st : EnhState) : EnhState :=
  initSec R j { st with cur := some j }

/-- Set the current subsection and initialize its tracking. -/
def setSub (R : Rubric) (j : String) (st : EnhState) : EnhState :=
  initSec R j { st with sub := some j }

/-- First anchor literal of the section-2 special case. -/
def anchorA : List Char := "<a class=\"anchor\" id=\"deseq\"></a>".data

/-- Second anchor literal of the section-2 special case. -/
def anchorB : List Char := "# 2. DESeq2".data

/-- The special case recognising section `2.` through its anchor markup. -/
def anchorStep (R : Rubric) (src : List Char) (st : EnhState) : EnhState :=
  if occursIn anchorA src && occursIn anchorB src then setMain R "2." st else st

/-- Apply the last top-level header found in the cell, if any. -/
def mainsStep (isA : Bool) (R : Rubric) (src : List Char) (st : EnhState) : EnhState :=
  match ((splitLines src).filterMap (parseMainLine isA)).getLast? with
  | some m => setMain R m st
  | none => st

/-- Apply the last subsection header found in the cell, if any. -/
def subsStep (isA : Bool) (R : Rubric) (src : List Char) (st : EnhState) : EnhState :=
  match ((splitLines src).filterMap (parseSubLine isA)).getLast? with
  | some s => setSub R s st
  | none => st

/-- Full header handling for one markdown cell: anchor special case, then the
last top-level header, then the last subsection header. -/
def headerUpdate (isA : Bool) (R : Rubric) (st : EnhState) (src : List Char) : EnhState :=
  subsStep isA R src (mainsStep isA R src (anchorStep R src st))

/-- The active section for attribution: the current subsection if one has
been set, else the current top-level section. -/
def activeOf (st : EnhState) : Option String :=
  match st.sub with
  | some s => some s
  | none => st.cur

/-- Cell attribution: the active section is the current subsection if set,
else the current top-level section; code and raw cells under an active
rubric-known key bump that key's counters, completion or missed list. -/
def countCell (R : Rubric) (st : EnhState) (cell : Cell) : EnhState :=
  match activeOf st with
  | none => st
  | some k =>
    if keyMem k R then
      if cell.cell_type == "code" then
        let n := st.ctC k + 1
        if has_content cell then
          { st with ctC := updFn st.ctC k n, ccC := updFn st.ccC k (st.ccC k + 1) }
        else
          { st with ctC := updFn st.ctC k n, missC := updFn st.missC k (st.missC k ++ [n]) }
      else if cell.cell_type == "raw" then
        let n := st.ctR k + 1
        if has_content cell then
          { st with ctR := updFn st.ctR k n, ccR := updFn st.ccR k (st.ccR k + 1) }
        else
          { st with ctR := updFn st.ctR k n, missR := updFn st.missR k (st.missR k ++ [n]) }
      else st
    else st

/-- One iteration of the enhanced scan: markdown cells update the header
state, then every cell goes through attribution. -/
def stepEnh (isA : Bool) (R : Rubric) (st : EnhState) (cell : Cell) : EnhState :=
  let st1 := if cell.cell_type == "markdown" then headerUpdate isA R st (joinedSource cell) else st
  countCell R st1 cell

/-- The full enhanced scan over the document's cells. -/
def scanEnh (isA : Bool) (R : Rubric) (cells : List Cell) : EnhState :=
  cells.foldl (stepEnh isA R) enhInit

/-- Dialect selection: `'02-rnaseq_analysis' in asset_id.lower()`. -/
def isAnalysisOf (cfg : ExpectedConfig) : Bool :=
  occursIn "02-rnaseq_analysis".data (cfg.asset_id.data.map Char.toLower)

/-- The enhanced scan for a given expected configuration. -/
def enhScan (cfg : ExpectedConfig) (cells : List Cell) : EnhState :=
  scanEnh (isAnalysisOf cfg) cfg.sections cells

/-- A per-section score in the grading result: the detailed code/raw record
or the plain earned number. -/
inductive SecScore where
  | detailed (code raw total expected_code expected_raw expected_total : Nat)
  | plain (n : Nat)
deriving DecidableEq

/-- The points a section score contributes to `total_points`. -/
def secPoints : SecScore → Nat
  | SecScore.detailed _ _ t _ _ _ => t
  | SecScore.plain n => n

/-- Scoring of one rubric entry from the final scan state: the capping by the
expected counts from the source. -/
def scoreOne (st : EnhState) (k : String) (scfg : SectionCfg) : SecScore :=
  if scfg.code_cells.isSome then
    let ec := scfg.code_cells.getD 0
    let er := scfg.raw_cells.getD 0
    SecScore.detailed (min (st.ccC k) ec) (min (st.ccR k) er)
      (min (st.ccC k) ec + min (st.ccR k) er) ec er (ec + er)
  else
    SecScore.plain (min (st.ccC k) (scfg.points.getD 0))

/-- The score a rubric entry receives when its counters are untouched. -/
def zeroScore (scfg : SectionCfg) : SecScore :=
  if scfg.code_cells.isSome then
    SecScore.detailed 0 0 0 (scfg.code_cells.getD 0) (scfg.raw_cells.getD 0)
      (scfg.code_cells.getD 0 + scfg.raw_cells.getD 0)
  else
    SecScore.plain 0

/-- The `missed_indices` mapping of a grading result: per-key code/raw lists
for the enhanced grader, flat lists (with a possibly absent key) for the
variants. -/
inductive MissedMap where
  | enh (m : List (String × (List Nat × List Nat)))
  | flat (m : List (Option String × List Nat))
deriving DecidableEq

/-- A grading result: the per-section scores in rubric order, the total, the
missed-indices mapping when the grader produces one, and the issues list of
the error path. -/
structure GradeResult where
  sections : List (String × SecScore)
  total_points : Nat
  missed : Option MissedMap
  issues : List String
deriving DecidableEq

/-- The enhanced grader `grade_notebook_enhanced`: scan, then score every
rubric entry in order. -/
def gradeEnhanced (cfg : ExpectedConfig) (cells : List Cell) : GradeResult :=
  let st := enhScan cfg cells
  let secs := cfg.sections.map (fun p => (p.1, scoreOne st p.1 p.2))
  { sections := secs
    total_points := (secs.map (fun p => secPoints p.2)).sum
    missed := some (MissedMap.enh (st.missedKeys.map (fun k => (k, (st.missC k, st.missR k)))))
    issues := [] }

/-! ## The markdown-exercise variant -/

/-- The literal instructional sentence the markdown-exercise variant searches
for. -/
def checkTextStr : String :=
  "If you did the step above, you should see a cell above this one with rendered text of whatever you put in."

/-- The sentence as characters. -/
def checkText : List Char := checkTextStr.data

/-- Scan state of `grade_markdown_exercise_01`: current section, completed
and total counters, the completed-code counter used by the exercise check,
the missed-indices mapping (whose key may be absent), and the key set of the
counter dicts. -/
structure MdexState where
  cur : Option String
  completed : String → Nat
  counts : String → Nat
  codeCompleted : String → Nat
  missedVals : Option String → List Nat
  missedKeys : List (Option String)
  seen : List String

/-- The initial markdown-exercise state. -/
def mdexInit : MdexState :=
  ⟨none, fun _ => 0, fun _ => 0, fun _ => 0, fun _ => [], [], []⟩

/-- Append a missed-indices key if absent (Python dict assignment on a
possibly new key). -/
def addIfAbsentO (l : List (Option String)) (q : Option String) : List (Option String) :=
  if q ∈ l then l else l ++ [q]

/-- Section initialization of the variants: unconditional on the rubric; the
missed list is set empty. -/
def mdexInitSec (k : String) (st : MdexState) : MdexState :=
  if k ∈ st.seen then st
  else
    { st with
      seen := st.seen ++ [k]
      missedKeys := addIfAbsentO st.missedKeys (some k)
      missedVals := updFn st.missedVals (some k) [] }

/-- Header handling of the markdown-exercise first pass: the first matching
header line of a markdown cell sets the current section and initializes it. -/
def mdexHeader (st : MdexState) (cell : Cell) : MdexState :=
  if cell.cell_type == "markdown" then
    match firstVariantHeader (splitLines (joinedSource cell)) with
    | some k => mdexInitSec k { st with cur := some k }
    | none => st
  else st

/-- Code-cell attribution of the markdown-exercise first pass: an incomplete
code cell clears the missed list instead of recording an index. -/
def mdexCount (R : Rubric) (st : MdexState) (cell : Cell) : MdexState :=
  match st.cur with
  | none => st
  | some k =>
    if keyMem k R then
      if cell.cell_type == "code" then
        let st2 := { st with counts := updFn st.counts k (st.counts k + 1) }
        if has_content cell then
          { st2 with
            completed := updFn st2.completed k (st2.completed k + 1)
            codeCompleted := updFn st2.codeCompleted k (st2.codeCompleted k + 1) }
        else
          { st2 with
            missedVals := updFn st2.missedVals (some k) []
            missedKeys := addIfAbsentO st2.missedKeys (some k) }
      else st
    else st

/-- One iteration of the markdown-exercise first pass. -/
def stepMdex1 (R : Rubric) (st : MdexState) (cell : Cell) : MdexState :=
  mdexCount R (mdexHeader st cell) cell

/-- The full first pass. -/
def mdexPass1 (R : Rubric) (cells : List Cell) : MdexState :=
  cells.foldl (stepMdex1 R) mdexInit

/-- Index search of the second pass, from a given index. -/
def findTriggerFrom (i : Nat) : List Cell → Option Nat
  | [] => none
  | c :: rest =>
    if c.cell_type == "markdown" && occursIn checkText (joinedSource c) then some i
    else findTriggerFrom (i + 1) rest

/-- The index of the first markdown cell containing the instructional
sentence (the loop breaks there). -/
def findTriggerIdx (cells : List Cell) : Option Nat :=
  findTriggerFrom 0 cells

/-- Second pass of the markdown-exercise variant: at the trigger cell, grant
the unit when the previous cell is a completed markdown cell and a code cell
of the tracked section was completed; when the previous cell fails the test,
clear the tracked section's missed list. -/
def applyPass2 (cells : List Cell) (st : MdexState) : MdexState :=
  match findTriggerIdx cells with
  | some (Nat.succ i) =>
    match cells.get? i with
    | some pc =>
      if pc.cell_type == "markdown" && has_content pc then
        match st.cur with
        | some k =>
          if st.codeCompleted k > 0 then
            { st with completed := updFn st.completed k (st.completed k + 1) }
          else st
        | none => st
      else
        { st with
          missedVals := updFn st.missedVals st.cur []
          missedKeys := addIfAbsentO st.missedKeys st.cur }
    | none => st
  | _ => st

/-- Both passes of the markdown-exercise variant. -/
def mdexScanFull (R : Rubric) (cells : List Cell) : MdexState :=
  applyPass2 cells (mdexPass1 R cells)

/-- The grant condition of the second pass against a given state: trigger
found at a positive index, previous cell a completed markdown cell, and a
completed code cell in the tracked section. -/
def mdexGrantAt (cells : List Cell) (st : MdexState) : Bool :=
  match findTriggerIdx cells with
  | some (Nat.succ i) =>
    match st.cur, cells.get? i with
    | some k, some pc =>
      pc.cell_type == "markdown" && has_content pc && decide (0 < st.codeCompleted k)
    | _, _ => false
  | _ => false

/-- The grant condition of the second pass for a document, evaluated at the
state the first pass leaves behind. -/
def mdexGrant (R : Rubric) (cells : List Cell) : Bool :=
  mdexGrantAt cells (mdexPass1 R cells)

/-- The markdown-exercise grader `grade_markdown_exercise_01`: both passes,
then plain-points scoring of every rubric entry. -/
def gradeMdex (R : Rubric) (cells : List Cell) : GradeResult :=
  let st := mdexScanFull R cells
  let secs := R.map (fun p => (p.1, SecScore.plain (min (st.completed p.1) (p.2.points.getD 0))))
  { sections := secs
    total_points := (secs.map (fun p => secPoints p.2)).sum
    missed := some (MissedMap.flat (st.missedKeys.map (fun q => (q, st.missedVals q))))
    issues := [] }

/-! ## The question/answer variant -/

/-- Scan state of `grade_question_answer`: current section, the per-section
completed and unit counters, and the missed-indices mapping. -/
structure QaState where
  cur : Option String
  completed : String → Nat
  counts : String → Nat
  missedVals : String → List Nat
  missedKeys : List String

/-- The initial question/answer state. -/
def qaInit : QaState :=
  ⟨none, fun _ => 0, fun _ => 0, fun _ => [], []⟩

/-- Section initialization of the question/answer variant. -/
def qaInitSec (k : String) (st : QaState) : QaState :=
  if k ∈ st.missedKeys then st
  else { st with missedKeys := st.missedKeys ++ [k] }

/-- Header handling of the question/answer scan: the first matching header
line of a markdown cell's trimmed source sets the current section. -/
def qaHeader (st : QaState) (cell : Cell) : QaState :=
  if cell.cell_type == "markdown" then
    match firstVariantHeader (splitLines (cellText cell)) with
    | some k => qaInitSec k { st with cur := some k }
    | none => st
  else st

/-- Question-cell counting of the question/answer scan in active rubric-known
sections: a Question cell without a colon bumps the counter but is recorded
neither as completed nor as missed. -/
def qaCount (R : Rubric) (st : QaState) (cell : Cell) : QaState :=
  match st.cur with
  | none => st
  | some k =>
    if keyMem k R then
      if leadsWith qtoken (cellText cell) then
        let n := st.counts k + 1
        let st2 := { st with counts := updFn st.counts k n }
        match afterColon (cellText cell) with
        | some rest =>
          if !(trimChars rest).isEmpty then
            { st2 with completed := updFn st2.completed k (st2.completed k + 1) }
          else
            { st2 with missedVals := updFn st2.missedVals k (st2.missedVals k ++ [n]) }
        | none => st2
      else st
    else st

/-- One iteration of the question/answer scan. -/
def stepQa (R : Rubric) (st : QaState) (cell : Cell) : QaState :=
  qaCount R (qaHeader st cell) cell

/-- The full question/answer scan. -/
def scanQa (R : Rubric) (cells : List Cell) : QaState :=
  cells.foldl (stepQa R) qaInit

/-- The question/answer grader `grade_question_answer`: scan, then
plain-points scoring of every rubric entry. -/
def gradeQa (R : Rubric) (cells : List Cell) : GradeResult :=
  let st := scanQa R cells
  let secs := R.map (fun p => (p.1, SecScore.plain (min (st.completed p.1) (p.2.points.getD 0))))
  { sections := secs
    total_points := (secs.map (fun p => secPoints p.2)).sum
    missed := some (MissedMap.flat (st.missedKeys.map (fun k => (some k, st.missedVals k))))
    issues := [] }

/-! ## The dispatching wrapper `grade_notebook` -/

/-- The specialized grading path a rubric selects. -/
inductive SpecialPath where
  | mdex
  | qa
deriving DecidableEq

/-- Path selection of `grade_notebook`: the first section carrying a
recognised `special` tag governs the whole document; unknown tags are passed
over; no tag falls through to the enhanced grader. -/
def selectGrader : Rubric → Option SpecialPath
  | [] => none
  | (_, c) :: rest =>
    match c.special with
    | some tag =>
      if tag = "markdown_exercise_01" then some SpecialPath.mdex
      else if tag = "question_answer" then some SpecialPath.qa
      else selectGrader rest
    | none => selectGrader rest

/-- The raw input of one grading call: an unparsable file, a parsed document
lacking the `cells` key, or a parsed document with its cells. -/
inductive RawInput where
  | unparsable (msg : String)
  | noCellsKey
  | doc (cells : List Cell)
deriving DecidableEq

/-- The recovery result the wrapper's exception handler builds. -/
def errorResult (msg : String) : GradeResult :=
  { sections := []
    total_points := 0
    missed := none
    issues := ["Error processing notebook: " ++ msg] }

/-- Dispatch over a parsed document. -/
def gradeParsed (cfg : ExpectedConfig) (cells : List Cell) : GradeResult :=
  match selectGrader cfg.sections with
  | some SpecialPath.mdex => gradeMdex cfg.sections cells
  | some SpecialPath.qa => gradeQa cfg.sections cells
  | none => gradeEnhanced cfg cells

/-- The wrapper `grade_notebook`: unparsable input is caught and yields the
recovery result; a parsed document lacking `cells` raises (and is caught)
inside the enhanced and markdown-exercise paths, while the question/answer
path reads `notebook.get('cells', [])` and grades an empty cell list. -/
def grade_notebook (cfg : ExpectedConfig) : RawInput → GradeResult
  | RawInput.unparsable m => errorResult m
  | RawInput.noCellsKey =>
    match selectGrader cfg.sections with
    | some SpecialPath.qa => gradeQa cfg.sections []
    | _ => errorResult "KeyError: cells"
  | RawInput.doc cells => gradeParsed cfg cells

/-- The orchestration loop over many submissions: each document is graded in
turn while an aggregate accumulator is threaded through. -/
def gradeSequence (cfg : ExpectedConfig) : List RawInput → (List GradeResult × Nat)
  | [] => ([], 0)
  | d :: ds =>
    let r := grade_notebook cfg d
    let rest := gradeSequence cfg ds
    (r :: rest.1, r.total_points + rest.2)

/-! ## Concrete documents and rubrics used by witnesses and counterexamples -/

/-- A markdown cell with one source fragment. -/
def mdCell (s : String) : Cell :=
  { cell_type := "markdown", source := [s] }

/-- A completed code cell (non-empty source, one output). -/
def codeCellDone (s : String) : Cell :=
  { cell_type := "code", source := [s], outputs := ["ok"] }

/-- A completed raw cell. -/
def rawCellDone (s : String) : Cell :=
  { cell_type := "raw", source := [s] }

/-- A detailed rubric entry expecting two code cells and one raw cell. -/
def scW : SectionCfg := { code_cells := some 2, raw_cells := some 1 }

/-- A detailed rubric entry expecting one code cell and no raw cells. -/
def sc11 : SectionCfg := { code_cells := some 1, raw_cells := some 0 }

/-- A small processing-dialect configuration with one section. -/
def cfgW : ExpectedConfig :=
  { asset_id := "01-RNAseq_processing.ipynb", sections := [("1.", scW)] }

/-- Its document: header, a completed code cell, a completed raw cell. -/
def cellsW : List Cell :=
  [mdCell "# 1. Title", codeCellDone "x <- 1", rawCellDone "ans"]

/-- Rubric of the subsection-persistence counterexample. -/
def R2 : Rubric := [("1.", sc11), ("1a.", sc11), ("2.", sc11)]

/-- Its configuration (processing dialect). -/
def cfg2 : ExpectedConfig :=
  { asset_id := "01-RNAseq_processing.ipynb", sections := R2 }

/-- Its document: section 1, subsection 1a, a code cell, then a top-level
section-2 header followed by another code cell. -/
def doc2 : List Cell :=
  [mdCell "# 1. Intro", mdCell "### 1a. Sub", codeCellDone "a <- 1",
   mdCell "# 2. Next", codeCellDone "b <- 2"]

/-- A code cell with outputs whose source is Question-prefixed with nothing
after the colon. -/
def qOutCell : Cell :=
  { cell_type := "code", source := ["Question:"], outputs := ["ok"] }

/-- A markdown cell whose source is `"Question: "`. -/
def qSpaceCell : Cell := mdCell "Question: "

/-- A markdown cell whose source is `"Question: yes"`. -/
def qYesCell : Cell := mdCell "Question: yes"

/-- Configuration with a never-encountered key `9.` besides `1.`. -/
def cfg5 : ExpectedConfig :=
  { asset_id := "", sections := [("1.", scW), ("9.", sc11)] }

/-- Its document mentions only section `1.`. -/
def cells5 : List Cell :=
  [mdCell "# 1. Title", codeCellDone "x <- 1"]

/-- A question/answer rubric entry worth two points. -/
def qaCfg : SectionCfg := { points := some 2, special := some "question_answer" }

/-- A configuration selecting the question/answer path. -/
def cfgQ : ExpectedConfig := { asset_id := "", sections := [("1.", qaCfg)] }

/-- A markdown-exercise rubric entry worth two points. -/
def mdexCfg : SectionCfg := { points := some 2, special := some "markdown_exercise_01" }

/-- A markdown-exercise rubric. -/
def RW8 : Rubric := [("1.", mdexCfg)]

/-- A markdown-exercise document: header, completed code cell, a rendered
markdown cell, then the instructional-sentence cell. -/
def cells8 : List Cell :=
  [mdCell "# 1. Title", codeCellDone "print(1)", mdCell "my rendered text", mdCell checkTextStr]

/-- A question/answer rubric. -/
def RQ : Rubric := [("1.", qaCfg)]

/-- Its document: header, then a Question cell with no colon at all. -/
def cellsQ : List Cell :=
  [mdCell "# 1. Title", mdCell "Question with no separator at all"]

/-- A markdown cell containing two top-level header lines. -/
def twoHdrCell : Cell := mdCell "# 1. First\n# 2. Second"

/-- A rubric key the enhanced scan has never touched: it is not the current
section or subsection and all its counters are zero. -/
def enhUntouched (k : String) (st : EnhState) : Prop :=
  st.cur ≠ some k ∧ st.sub ≠ some k ∧
    st.ccC k = 0 ∧ st.ctC k = 0 ∧ st.ccR k = 0 ∧ st.ctR k = 0

/-! ## Structural lemmas about the enhanced scan -/

lemma updFn_self {α β : Type} [DecidableEq α] (f : α → β) (k : α) (v : β) :
    updFn f k v k = v := by
  simp [updFn]

lemma updFn_ne {α β : Type} [DecidableEq α] (f : α → β) (k x : α) (v : β) (h : x ≠ k) :
    updFn f k v x = f x := by
  simp [updFn, h]

lemma initSec_cur (R : Rubric) (j : String) (st : EnhState) :
    (initSec R j st).cur = st.cur := by
  unfold initSec; split <;> rfl

lemma initSec_sub (R : Rubric) (j : String) (st : EnhState) :
    (initSec R j st).sub = st.sub := by
  unfold initSec; split <;> rfl

lemma initSec_ccC (R : Rubric) (j : String) (st : EnhState) :
    (initSec R j st).ccC = st.ccC := by
  unfold initSec; split <;> rfl

lemma initSec_ctC (R : Rubric) (j : String) (st : EnhState) :
    (initSec R j st).ctC = st.ctC := by
  unfold initSec; split <;> rfl

lemma initSec_ccR (R : Rubric) (j : String) (st : EnhState) :
    (initSec R j st).ccR = st.ccR := by
  unfold initSec; split <;> rfl

lemma initSec_ctR (R : Rubric) (j : String) (st : EnhState) :
    (initSec R j st).ctR = st.ctR := by
  unfold initSec; split <;> rfl

lemma initSec_mono (R : Rubric) (j k : String) (st : EnhState)
    (h : k ∈ st.missedKeys) : k ∈ (initSec R j st).missedKeys := by
  unfold initSec; split
  · exact List.mem_append_left _ h
  · exact h

lemma initSec_self (R : Rubric) (j : String) (st : EnhState)
    (hj : keyMem j R = true) : j ∈ (initSec R j st).missedKeys := by
  unfold initSec; split
  · exact List.mem_append_right _ (List.mem_singleton.mpr rfl)
  · next h =>
    rcases Decidable.not_and_iff_or_not.mp h with h1 | h2
    · exact absurd hj h1
    · exact Decidable.not_not.mp h2

lemma setMain_cur (R : Rubric) (j : String) (st : EnhState) :
    (setMain R j st).cur = some j := by
  unfold setMain; rw [initSec_cur]

lemma setMain_sub (R : Rubric) (j : String) (st : EnhState) :
    (setMain R j st).sub = st.sub := by
  unfold setMain; rw [initSec_sub]

lemma setSub_cur (R : Rubric) (j : String) (st : EnhState) :
    (setSub R j st).cur = st.cur := by
  unfold setSub; rw [initSec_cur]

lemma setSub_sub (R : Rubric) (j : String) (st : EnhState) :
    (setSub R j st).sub = some j := by
  unfold setSub; rw [initSec_sub]

lemma setMain_self (R : Rubric) (j : String) (st : EnhState)
    (hj : keyMem j R = true) : j ∈ (setMain R j st).missedKeys :=
  initSec_self R j _ hj

lemma setSub_self (R : Rubric) (j : String) (st : EnhState)
    (hj : keyMem j R = true) : j ∈ (setSub R j st).missedKeys :=
  initSec_self R j _ hj

lemma setMain_mono (R : Rubric) (j k : String) (st : EnhState)
    (h : k ∈ st.missedKeys) : k ∈ (setMain R j st).missedKeys :=
  initSec_mono R j k _ h

lemma setSub_mono (R : Rubric) (j k : String) (st : EnhState)
    (h : k ∈ st.missedKeys) : k ∈ (setSub R j st).missedKeys :=
  initSec_mono R j k _ h

lemma anchorStep_sub (R : Rubric) (src : List Char) (st : EnhState) :
    (anchorStep R src st).sub = st.sub := by
  unfold anchorStep; split
  · rw [setMain_sub]
  · rfl

lemma anchorStep_ccC (R : Rubric) (src : List Char) (st : EnhState) :
    (anchorStep R src st).ccC = st.ccC := by
  unfold anchorStep; split
  · unfold setMain; rw [initSec_ccC]
  · rfl

lemma anchorStep_ctC (R : Rubric) (src : List Char) (st : EnhState) :
    (anchorStep R src st).ctC = st.ctC := by
  unfold anchorStep; split
  · unfold setMain; rw [initSec_ctC]
  · rfl

lemma anchorStep_ccR (R : Rubric) (src : List Char) (st : EnhState) :
    (anchorStep R src st).ccR = st.ccR := by
  unfold anchorStep; split
  · unfold setMain; rw [initSec_ccR]
  · rfl

lemma anchorStep_ctR (R : Rubric) (src : List Char) (st : EnhState) :
    (anchorStep R src st).ctR = st.ctR := by
  unfold anchorStep; split
  · unfold setMain; rw [initSec_ctR]
  · rfl

lemma anchorStep_mono (R : Rubric) (src : List Char) (k : String) (st : EnhState)
    (h : k ∈ st.missedKeys) : k ∈ (anchorStep R src st).missedKeys := by
  unfold anchorStep; split
  · exact setMain_mono R _ k st h
  · exact h

lemma anchorStep_cur_escape (R : Rubric) (src : List Char) (k : String) (st : EnhState)
    (hkR : keyMem k R = true) (h : k ∉ (anchorStep R src st).missedKeys)
    (hc : st.cur ≠ some k) : (anchorStep R src st).cur ≠ some k := by
  unfold anchorStep at h ⊢
  by_cases hA : (occursIn anchorA src && occursIn anchorB src) = true
  · rw [if_pos hA] at h ⊢
    rw [setMain_cur]
    intro hEq
    have hk2 : k = "2." := (Option.some_injective _ hEq.symm)
    exact h (hk2 ▸ setMain_self R "2." st (hk2 ▸ hkR))
  · rw [if_neg hA] at h ⊢
    exact hc

lemma mainsStep_sub (isA : Bool) (R : Rubric) (src : List Char) (st : EnhState) :
    (mainsStep isA R src st).sub = st.sub := by
  unfold mainsStep; split
  · rw [setMain_sub]
  · rfl

lemma mainsStep_ccC (isA : Bool) (R : Rubric) (src : List Char) (st : EnhState) :
    (mainsStep isA R src st).ccC = st.ccC := by
  unfold mainsStep; split
  · unfold setMain; rw [initSec_ccC]
  · rfl

lemma mainsStep_ctC (isA : Bool) (R : Rubric) (src : List Char) (st : EnhState) :
    (mainsStep isA R src st).ctC = st.ctC := by
  unfold mainsStep; split
  · unfold setMain; rw [initSec_ctC]
  · rfl

lemma mainsStep_ccR (isA : Bool) (R : Rubric) (src : List Char) (st : EnhState) :
    (mainsStep isA R src st).ccR = st.ccR := by
  unfold mainsStep; split
  · unfold setMain; rw [initSec_ccR]
  · rfl

lemma mainsStep_ctR (isA : Bool) (R : Rubric) (src : List Char) (st : EnhState) :
    (mainsStep isA R src st).ctR = st.ctR := by
  unfold mainsStep; split
  · unfold setMain; rw [initSec_ctR]
  · rfl

lemma mainsStep_mono (isA : Bool) (R : Rubric) (src : List Char) (k : String) (st : EnhState)
    (h : k ∈ st.missedKeys) : k ∈ (mainsStep isA R src st).missedKeys := by
  unfold mainsStep; split
  · exact setMain_mono R _ k st h
  · exact h

lemma mainsStep_cur_escape (isA : Bool) (R : Rubric) (src : List Char) (k : String)
    (st : EnhState) (hkR : keyMem k R = true)
    (h : k ∉ (mainsStep isA R src st).missedKeys)
    (hc : st.cur ≠ some k) : (mainsStep isA R src st).cur ≠ some k := by
  cases hL : ((splitLines src).filterMap (parseMainLine isA)).getLast? with
  | none =>
    simp only [mainsStep, hL] at h ⊢
    exact hc
  | some m =>
    simp only [mainsStep, hL] at h ⊢
    rw [setMain_cur]
    intro hEq
    have hk2 : k = m := (Option.some_injective _ hEq.symm)
    exact h (hk2 ▸ setMain_self R m st (hk2 ▸ hkR))

lemma subsStep_cur (isA : Bool) (R : Rubric) (src : List Char) (st : EnhState) :
    (subsStep isA R src st).cur = st.cur := by
  unfold subsStep; split
  · rw [setSub_cur]
  · rfl

lemma subsStep_ccC (isA : Bool) (R : Rubric) (src : List Char) (st : EnhState) :
    (subsStep isA R src st).ccC = st.ccC := by
  unfold subsStep; split
  · unfold setSub; rw [initSec_ccC]
  · rfl

lemma subsStep_ctC (isA : Bool) (R : Rubric) (src : List Char) (st : EnhState) :
    (subsStep isA R src st).ctC = st.ctC := by
  unfold subsStep; split
  · unfold setSub; rw [initSec_ctC]
  · rfl

lemma subsStep_ccR (isA : Bool) (R : Rubric) (src : List Char) (st : EnhState) :
    (subsStep isA R src st).ccR = st.ccR := by
  unfold subsStep; split
  · unfold setSub; rw [initSec_ccR]
  · rfl

lemma subsStep_ctR (isA : Bool) (R : Rubric) (src : List Char) (st : EnhState) :
    (subsStep isA R src st).ctR = st.ctR := by
  unfold subsStep; split
  · unfold setSub; rw [initSec_ctR]
  · rfl

lemma subsStep_mono (isA : Bool) (R : Rubric) (src : List Char) (k : String) (st : EnhState)
    (h : k ∈ st.missedKeys) : k ∈ (subsStep isA R src st).missedKeys := by
  unfold subsStep; split
  · exact setSub_mono R _ k st h
  · exact h

lemma subsStep_sub_escape (isA : Bool) (R : Rubric) (src : List Char) (k : String)
    (st : EnhState) (hkR : keyMem k R = true)
    (h : k ∉ (subsStep isA R src st).missedKeys)
    (hc : st.sub ≠ some k) : (subsStep isA R src st).sub ≠ some k := by
  cases hL : ((splitLines src).filterMap (parseSubLine isA)).getLast? with
  | none =>
    simp only [subsStep, hL] at h ⊢
    exact hc
  | some m =>
    simp only [subsStep, hL] at h ⊢
    rw [setSub_sub]
    intro hEq
    have hk2 : k = m := (Option.some_injective _ hEq.symm)
    exact h (hk2 ▸ setSub_self R m st (hk2 ▸ hkR))

lemma subsStep_none (isA : Bool) (R : Rubric) (src : List Char) (st : EnhState)
    (h : (splitLines src).filterMap (parseSubLine isA) = []) :
    (subsStep isA R src st).sub = st.sub := by
  unfold subsStep
  rw [h]
  rfl

lemma headerUpdate_sub_of_nosub (isA : Bool) (R : Rubric) (st : EnhState) (src : List Char)
    (h : (splitLines src).filterMap (parseSubLine isA) = []) :
    (headerUpdate isA R st src).sub = st.sub := by
  unfold headerUpdate
  rw [subsStep_none isA R src _ h, mainsStep_sub, anchorStep_sub]

lemma headerUpdate_ccC (isA : Bool) (R : Rubric) (st : EnhState) (src : List Char) :
    (headerUpdate isA R st src).ccC = st.ccC := by
  unfold headerUpdate
  rw [subsStep_ccC, mainsStep_ccC, anchorStep_ccC]

lemma headerUpdate_ctC (isA : Bool) (R : Rubric) (st : EnhState) (src : List Char) :
    (headerUpdate isA R st src).ctC = st.ctC := by
  unfold headerUpdate
  rw [subsStep_ctC, mainsStep_ctC, anchorStep_ctC]

lemma headerUpdate_ccR (isA : Bool) (R : Rubric) (st : EnhState) (src : List Char) :
    (headerUpdate isA R st src).ccR = st.ccR := by
  unfold headerUpdate
  rw [subsStep_ccR, mainsStep_ccR, anchorStep_ccR]

lemma headerUpdate_ctR (isA : Bool) (R : Rubric) (st : EnhState) (src : List Char) :
    (headerUpdate isA R st src).ctR = st.ctR := by
  unfold headerUpdate
  rw [subsStep_ctR, mainsStep_ctR, anchorStep_ctR]

lemma headerUpdate_mono (isA : Bool) (R : Rubric) (st : EnhState) (src : List Char)
    (k : String) (h : k ∈ st.missedKeys) : k ∈ (headerUpdate isA R st src).missedKeys :=
  subsStep_mono isA R src k _ (mainsStep_mono isA R src k _ (anchorStep_mono R src k st h))

lemma headerUpdate_cur_escape (isA : Bool) (R : Rubric) (st : EnhState) (src : List Char)
    (k : String) (hkR : keyMem k R = true)
    (h : k ∉ (headerUpdate isA R st src).missedKeys)
    (hc : st.cur ≠ some k) : (headerUpdate isA R st src).cur ≠ some k := by
  unfold headerUpdate at h ⊢
  have h2 : k ∉ (mainsStep isA R src (anchorStep R src st)).missedKeys :=
    fun hm => h (subsStep_mono isA R src k _ hm)
  have h3 : k ∉ (anchorStep R src st).missedKeys :=
    fun hm => h2 (mainsStep_mono isA R src k _ hm)
  rw [subsStep_cur]
  exact mainsStep_cur_escape isA R src k _ hkR h2 (anchorStep_cur_escape R src k st hkR h3 hc)

lemma headerUpdate_sub_escape (isA : Bool) (R : Rubric) (st : EnhState) (src : List Char)
    (k : String) (hkR : keyMem k R = true)
    (h : k ∉ (headerUpdate isA R st src).missedKeys)
    (hc : st.sub ≠ some k) : (headerUpdate isA R st src).sub ≠ some k := by
  unfold headerUpdate at h ⊢
  have hc2 : (mainsStep isA R src (anchorStep R src st)).sub ≠ some k := by
    rw [mainsStep_sub, anchorStep_sub]; exact hc
  exact subsStep_sub_escape isA R src k _ hkR h hc2

lemma countCell_cur (R : Rubric) (st : EnhState) (cell : Cell) :
    (countCell R st cell).cur = st.cur := by
  unfold countCell
  cases activeOf st with
  | none => rfl
  | some j => dsimp only; split_ifs <;> rfl

lemma countCell_sub (R : Rubric) (st : EnhState) (cell : Cell) :
    (countCell R st cell).sub = st.sub := by
  unfold countCell
  cases activeOf st with
  | none => rfl
  | some j => dsimp only; split_ifs <;> rfl

lemma countCell_missedKeys (R : Rubric) (st : EnhState) (cell : Cell) :
    (countCell R st cell).missedKeys = st.missedKeys := by
  unfold countCell
  cases activeOf st with
  | none => rfl
  | some j => dsimp only; split_ifs <;> rfl

lemma activeOf_ne (st : EnhState) (k : String)
    (h1 : st.cur ≠ some k) (h2 : st.sub ≠ some k) : activeOf st ≠ some k := by
  unfold activeOf
  cases hs : st.sub with
  | none => exact h1
  | some s => rw [hs] at h2; exact h2

lemma countCell_untouched (R : Rubric) (st : EnhState) (cell : Cell) (k : String)
    (h1 : st.cur ≠ some k) (h2 : st.sub ≠ some k) :
    (countCell R st cell).ccC k = st.ccC k ∧ (countCell R st cell).ctC k = st.ctC k ∧
    (countCell R st cell).ccR k = st.ccR k ∧ (countCell R st cell).ctR k = st.ctR k := by
  have hact := activeOf_ne st k h1 h2
  unfold countCell
  cases hA : activeOf st with
  | none => exact ⟨rfl, rfl, rfl, rfl⟩
  | some j =>
    have hjk : k ≠ j := fun hkj => hact (by rw [hA, hkj])
    dsimp only
    split_ifs <;>
      refine ⟨?_, ?_, ?_, ?_⟩ <;>
        simp [updFn_ne _ _ _ _ hjk]

lemma stepEnh_mono (isA : Bool) (R : Rubric) (st : EnhState) (cell : Cell) (k : String)
    (h : k ∈ st.missedKeys) : k ∈ (stepEnh isA R st cell).missedKeys := by
  unfold stepEnh
  rw [countCell_missedKeys]
  split
  · exact headerUpdate_mono isA R st _ k h
  · exact h

lemma stepEnh_untouched (isA : Bool) (R : Rubric) (st : EnhState) (cell : Cell) (k : String)
    (hkR : keyMem k R = true) (hnot : k ∉ (stepEnh isA R st cell).missedKeys)
    (hst : enhUntouched k st) : enhUntouched k (stepEnh isA R st cell) := by
  obtain ⟨hc, hs, u1, u2, u3, u4⟩ := hst
  unfold stepEnh at hnot ⊢
  rw [countCell_missedKeys] at hnot
  by_cases hmd : (cell.cell_type == "markdown") = true
  · rw [if_pos hmd] at hnot ⊢
    have hc2 := headerUpdate_cur_escape isA R st (joinedSource cell) k hkR hnot hc
    have hs2 := headerUpdate_sub_escape isA R st (joinedSource cell) k hkR hnot hs
    obtain ⟨e1, e2, e3, e4⟩ := countCell_untouched R (headerUpdate isA R st (joinedSource cell)) cell k hc2 hs2
    refine ⟨?_, ?_, ?_, ?_, ?_, ?_⟩
    · rw [countCell_cur]; exact hc2
    · rw [countCell_sub]; exact hs2
    · rw [e1, headerUpdate_ccC]; exact u1
    · rw [e2, headerUpdate_ctC]; exact u2
    · rw [e3, headerUpdate_ccR]; exact u3
    · rw [e4, headerUpdate_ctR]; exact u4
  · rw [if_neg hmd] at hnot ⊢
    obtain ⟨e1, e2, e3, e4⟩ := countCell_untouched R st cell k hc hs
    refine ⟨?_, ?_, ?_, ?_, ?_, ?_⟩
    · rw [countCell_cur]; exact hc
    · rw [countCell_sub]; exact hs
    · rw [e1]; exact u1
    · rw [e2]; exact u2
    · rw [e3]; exact u3
    · rw [e4]; exact u4

lemma scanFrom_mono (isA : Bool) (R : Rubric) (k : String) :
    ∀ (cells : List Cell) (st : EnhState), k ∈ st.missedKeys →
      k ∈ (List.foldl (stepEnh isA R) st cells).missedKeys := by
  intro cells
  induction cells with
  | nil => intro st h; exact h
  | cons c cs ih =>
    intro st h
    exact ih (stepEnh isA R st c) (stepEnh_mono isA R st c k h)

lemma scanFrom_untouched (isA : Bool) (R : Rubric) (k : String) (hkR : keyMem k R = true) :
    ∀ (cells : List Cell) (st : EnhState),
      k ∉ (List.foldl (stepEnh isA R) st cells).missedKeys →
      enhUntouched k st → enhUntouched k (List.foldl (stepEnh isA R) st cells) := by
  intro cells
  induction cells with
  | nil => intro st _ h2; exact h2
  | cons c cs ih =>
    intro st h1 h2
    have hstep : k ∉ (stepEnh isA R st c).missedKeys := by
      intro hm
      exact h1 (scanFrom_mono isA R k cs (stepEnh isA R st c) hm)
    exact ih (stepEnh isA R st c) h1 (stepEnh_untouched isA R st c k hkR hstep h2)

lemma scanEnh_untouched (isA : Bool) (R : Rubric) (k : String) (cells : List Cell)
    (hkR : keyMem k R = true) (h : k ∉ (scanEnh isA R cells).missedKeys) :
    enhUntouched k (scanEnh isA R cells) := by
  refine scanFrom_untouched isA R k hkR cells enhInit h ?_
  exact ⟨by simp [enhInit], by simp [enhInit], rfl, rfl, rfl, rfl⟩

lemma keyMem_of_mem (R : Rubric) (k : String) (scfg : SectionCfg)
    (h : (k, scfg) ∈ R) : keyMem k R = true := by
  unfold keyMem
  rw [List.any_eq_true]
  exact ⟨(k, scfg), h, by simp⟩

lemma scoreOne_zero (st : EnhState) (k : String) (scfg : SectionCfg)
    (h1 : st.ccC k = 0) (h2 : st.ccR k = 0) : scoreOne st k scfg = zeroScore scfg := by
  unfold scoreOne zeroScore
  split <;> simp [h1, h2]

lemma secPoints_scoreOne_zero (st : EnhState) (k : String) (scfg : SectionCfg)
    (h1 : st.ccC k = 0) (h2 : st.ccR k = 0) : secPoints (scoreOne st k scfg) = 0 := by
  rw [scoreOne_zero st k scfg h1 h2]
  unfold zeroScore
  split <;> rfl

lemma mem_sections_of_mem (cfg : ExpectedConfig) (cells : List Cell) (k : String)
    (scfg : SectionCfg) (h : (k, scfg) ∈ cfg.sections) :
    (k, scoreOne (enhScan cfg cells) k scfg) ∈ (gradeEnhanced cfg cells).sections := by
  show (k, scoreOne (enhScan cfg cells) k scfg) ∈
    cfg.sections.map (fun p => (p.1, scoreOne (enhScan cfg cells) p.1 p.2))
  exact List.mem_map_of_mem _ h

lemma totalPoints_zero (R : Rubric) (st : EnhState)
    (h1 : ∀ j, st.ccC j = 0) (h2 : ∀ j, st.ccR j = 0) :
    ((R.map (fun p => (p.1, scoreOne st p.1 p.2))).map (fun p => secPoints p.2)).sum = 0 := by
  induction R with
  | nil => rfl
  | cons p ps ih =>
    simp only [List.map_cons, List.sum_cons, ih]
    rw [secPoints_scoreOne_zero st p.1 p.2 (h1 p.1) (h2 p.1)]

lemma countCell_skip (R : Rubric) (st : EnhState) (cell : Cell)
    (h1 : (cell.cell_type == "code") = false) (h2 : (cell.cell_type == "raw") = false) :
    countCell R st cell = st := by
  unfold countCell
  cases activeOf st with
  | none => rfl
  | some j =>
    dsimp only
    rw [h1, h2]
    simp

/-! ## Claim theorems -/

/-- C1: for every notebook document and every rubric key with expected code
count `c` and raw count `r`, the enhanced grader's result records
`earned_code = min(completed_code, c)` and `earned_raw = min(completed_raw, r)`,
hence the earned counts never exceed the expected counts. -/
theorem enhanced_capping (cfg : ExpectedConfig) (cells : List Cell) (k : String)
    (scfg : SectionCfg) (c : Nat) (hmem : (k, scfg) ∈ cfg.sections)
    (hc : scfg.code_cells = some c) :
    (k, SecScore.detailed (min ((enhScan cfg cells).ccC k) c)
        (min ((enhScan cfg cells).ccR k) (scfg.raw_cells.getD 0))
        (min ((enhScan cfg cells).ccC k) c +
          min ((enhScan cfg cells).ccR k) (scfg.raw_cells.getD 0))
        c (scfg.raw_cells.getD 0) (c + scfg.raw_cells.getD 0))
      ∈ (gradeEnhanced cfg cells).sections ∧
    min ((enhScan cfg cells).ccC k) c ≤ c ∧
    min ((enhScan cfg cells).ccR k) (scfg.raw_cells.getD 0) ≤ scfg.raw_cells.getD 0 := by
  refine ⟨?_, Nat.min_le_right _ _, Nat.min_le_right _ _⟩
  have h := mem_sections_of_mem cfg cells k scfg hmem
  have he : scoreOne (enhScan cfg cells) k scfg =
      SecScore.detailed (min ((enhScan cfg cells).ccC k) c)
        (min ((enhScan cfg cells).ccR k) (scfg.raw_cells.getD 0))
        (min ((enhScan cfg cells).ccC k) c +
          min ((enhScan cfg cells).ccR k) (scfg.raw_cells.getD 0))
        c (scfg.raw_cells.getD 0) (c + scfg.raw_cells.getD 0) := by
    simp [scoreOne, hc]
  rwa [he] at h

/-- Witness for C1 at a concrete document and rubric. -/
theorem enhanced_capping_witness :
    ("1.", scW) ∈ cfgW.sections ∧
    ((("1.", SecScore.detailed (min ((enhScan cfgW cellsW).ccC "1.") 2)
        (min ((enhScan cfgW cellsW).ccR "1.") (scW.raw_cells.getD 0))
        (min ((enhScan cfgW cellsW).ccC "1.") 2 +
          min ((enhScan cfgW cellsW).ccR "1.") (scW.raw_cells.getD 0))
        2 (scW.raw_cells.getD 0) (2 + scW.raw_cells.getD 0))
      ∈ (gradeEnhanced cfgW cellsW).sections) ∧
      min ((enhScan cfgW cellsW).ccC "1.") 2 ≤ 2 ∧
      min ((enhScan cfgW cellsW).ccR "1.") (scW.raw_cells.getD 0) ≤ scW.raw_cells.getD 0) :=
  ⟨by decide, enhanced_capping cfgW cellsW "1." scW 2 (by decide) rfl⟩

/-- C5: a document with zero cells grades to `total_points = 0` with every
rubric key present at zero earned units and full expected totals; and any
rubric key the scan never initialized (its header never encountered) likewise
keeps its zero-earned, full-expected score for an arbitrary document. -/
theorem empty_and_missing_sections :
    (∀ cfg : ExpectedConfig, (gradeEnhanced cfg []).total_points = 0 ∧
      ∀ (k : String) (scfg : SectionCfg), (k, scfg) ∈ cfg.sections →
        (k, zeroScore scfg) ∈ (gradeEnhanced cfg []).sections) ∧
    (∀ (cfg : ExpectedConfig) (cells : List Cell) (k : String) (scfg : SectionCfg),
      (k, scfg) ∈ cfg.sections → k ∉ (enhScan cfg cells).missedKeys →
      (k, zeroScore scfg) ∈ (gradeEnhanced cfg cells).sections) := by
  constructor
  · intro cfg
    constructor
    · show ((cfg.sections.map
          (fun p => (p.1, scoreOne (enhScan cfg []) p.1 p.2))).map
            (fun p => secPoints p.2)).sum = 0
      exact totalPoints_zero cfg.sections (enhScan cfg []) (fun j => rfl) (fun j => rfl)
    · intro k scfg hmem
      have h := mem_sections_of_mem cfg [] k scfg hmem
      rwa [scoreOne_zero _ _ _ rfl rfl] at h
  · intro cfg cells k scfg hmem hnot
    have hkR := keyMem_of_mem cfg.sections k scfg hmem
    have hu : enhUntouched k (enhScan cfg cells) :=
      scanEnh_untouched (isAnalysisOf cfg) cfg.sections k cells hkR hnot
    have h := mem_sections_of_mem cfg cells k scfg hmem
    rwa [scoreOne_zero _ _ _ hu.2.2.1 hu.2.2.2.2.1] at h

/-- Witness for C5: the zero-cell document, and a rubric key whose header
never appears in a non-empty document. -/
theorem empty_and_missing_sections_witness :
    (("1.", zeroScore scW) ∈ (gradeEnhanced cfg5 []).sections) ∧
    (("9.", zeroScore sc11) ∈ (gradeEnhanced cfg5 cells5).sections) :=
  ⟨(empty_and_missing_sections.1 cfg5).2 "1." scW (by decide),
   empty_and_missing_sections.2 cfg5 cells5 "9." sc11 (by decide) (by decide)⟩

/-- C2 counterexample: in `doc2` a subsection header `1a.` is followed by a
top-level header `2.`, yet the code cell after that top-level header is still
attributed to `1a.` (its unit count reaches 2) while section `2.` receives
nothing, so a later top-level header does not end the subsection's ownership
of cell attribution. -/
theorem subsection_reassignment_cx :
    (enhScan cfg2 doc2).ctC "1a." = 2 ∧ (enhScan cfg2 doc2).ctC "2." = 0 ∧
    ("2.", SecScore.detailed 0 0 0 1 0 1) ∈ (gradeEnhanced cfg2 doc2).sections := by
  exact ⟨by decide, by decide, by decide⟩

/-- C2 amended: once a subsection header has set the current subsection,
subsequent code cells are attributed to that subsection until a new
subsection header appears; a markdown cell containing no subsection header
(in particular one carrying only a top-level header) leaves the subsection in
place, so the next code cell still counts toward the subsection. -/
theorem subsection_persistence (isA : Bool) (R : Rubric) (st : EnhState) (k : String)
    (md c : Cell) (hsub : st.sub = some k) (hkR : keyMem k R = true)
    (hmd : md.cell_type = "markdown")
    (hnosub : (splitLines (joinedSource md)).filterMap (parseSubLine isA) = [])
    (hcode : c.cell_type = "code") :
    (stepEnh isA R (stepEnh isA R st md) c).sub = some k ∧
    (stepEnh isA R (stepEnh isA R st md) c).ctC k = st.ctC k + 1 := by
  have hmdB : (md.cell_type == "markdown") = true := by rw [hmd]; rfl
  have e1 : stepEnh isA R st md = headerUpdate isA R st (joinedSource md) := by
    unfold stepEnh
    rw [if_pos hmdB]
    exact countCell_skip R _ md (by rw [hmd]; rfl) (by rw [hmd]; rfl)
  have hsub1 : (stepEnh isA R st md).sub = some k := by
    rw [e1, headerUpdate_sub_of_nosub isA R st _ hnosub]
    exact hsub
  have hct1 : (stepEnh isA R st md).ctC = st.ctC := by
    rw [e1, headerUpdate_ctC]
  have hcB : (c.cell_type == "markdown") = false := by rw [hcode]; rfl
  have e2 : stepEnh isA R (stepEnh isA R st md) c = countCell R (stepEnh isA R st md) c := by
    unfold stepEnh
    rw [if_neg (by simp [hcB])]
  have hact : activeOf (stepEnh isA R st md) = some k := by
    unfold activeOf
    rw [hsub1]
  have hcodeB : (c.cell_type == "code") = true := by rw [hcode]; rfl
  constructor
  · rw [e2, countCell_sub]
    exact hsub1
  · rw [e2]
    unfold countCell
    rw [hact]
    dsimp only
    rw [if_pos hkR, if_pos hcodeB]
    by_cases hhc : has_content c = true
    · rw [if_pos hhc]
      show updFn (stepEnh isA R st md).ctC k ((stepEnh isA R st md).ctC k + 1) k = st.ctC k + 1
      rw [updFn_self, hct1]
    · rw [if_neg hhc]
      show updFn (stepEnh isA R st md).ctC k ((stepEnh isA R st md).ctC k + 1) k = st.ctC k + 1
      rw [updFn_self, hct1]

/-- Witness for the amended C2: from a state whose subsection is `1a.`, a
markdown cell carrying only the top-level header `2.` followed by a code cell
still bumps the unit count of `1a.`. -/
theorem subsection_persistence_witness :
    (stepEnh false R2 (stepEnh false R2 { enhInit with sub := some "1a." }
        (mdCell "# 2. Next")) (codeCellDone "b <- 2")).sub = some "1a." ∧
    (stepEnh false R2 (stepEnh false R2 { enhInit with sub := some "1a." }
        (mdCell "# 2. Next")) (codeCellDone "b <- 2")).ctC "1a." =
      ({ enhInit with sub := some "1a." } : EnhState).ctC "1a." + 1 :=
  subsection_persistence false R2 { enhInit with sub := some "1a." } "1a."
    (mdCell "# 2. Next") (codeCellDone "b <- 2") rfl (by decide) rfl (by decide) rfl

/-- C3 counterexample: a code cell whose trimmed source is the non-empty text
`Question:` and whose outputs collection is non-empty is classified
incomplete, because the Question rule pre-empts the code-cell rule. -/
theorem code_output_question_cx :
    has_content qOutCell = false ∧
    qOutCell.cell_type = "code" ∧
    (cellText qOutCell).isEmpty = false ∧
    qOutCell.outputs.isEmpty = false := by
  decide

/-- C3 amended: a code cell with non-empty trimmed source and non-empty
outputs is classified complete regardless of its execution marker, provided
its trimmed source does not begin with the token "Question". -/
theorem code_output_complete (c : Cell)
    (h1 : c.cell_type = "code")
    (h2 : leadsWith qtoken (cellText c) = false)
    (h3 : (cellText c).isEmpty = false)
    (h4 : c.outputs.isEmpty = false) :
    has_content c = true := by
  simp [has_content, h1, h2, h3, h4]

/-- Witness for the amended C3: a code cell with a non-Question source and an
output but no execution marker. -/
theorem code_output_complete_witness :
    has_content (codeCellDone "print(1)") = true :=
  code_output_complete (codeCellDone "print(1)") rfl (by decide) (by decide) (by decide)

lemma afterColon_split (l : List Char) :
    (match afterColon l with
      | some rest => !(trimChars rest).isEmpty
      | none => false) = (containsColonB l && !(afterFirstColonTrim l).isEmpty) := by
  induction l with
  | nil => rfl
  | cons c rest ih =>
    by_cases hc : (c == ':') = true
    · simp [afterColon, afterFirstColonTrim, containsColonB, hc]
    · simp only [afterColon, afterFirstColonTrim, containsColonB, List.any_cons, hc,
        Bool.false_or, if_neg]
      exact ih

/-- C4: for every cell of any kind whose trimmed source begins with the token
"Question", the classifier returns complete exactly when a colon exists and
the trimmed text after the first colon is non-empty; in particular the cell
with source `"Question: "` is incomplete and `"Question: yes"` is complete. -/
theorem question_colon_rule :
    (∀ cell : Cell, leadsWith qtoken (cellText cell) = true →
      has_content cell =
        (containsColonB (cellText cell) && !(afterFirstColonTrim (cellText cell)).isEmpty)) ∧
    has_content qSpaceCell = false ∧ has_content qYesCell = true := by
  refine ⟨?_, by decide, by decide⟩
  intro cell hq
  unfold has_content
  dsimp only
  rw [if_pos hq]
  exact afterColon_split (cellText cell)

/-- Witness for C4 at the cell whose source is `"Question: "`. -/
theorem question_colon_rule_witness :
    has_content qSpaceCell =
      (containsColonB (cellText qSpaceCell) &&
        !(afterFirstColonTrim (cellText qSpaceCell)).isEmpty) :=
  question_colon_rule.1 qSpaceCell (by decide)

/-- C6 counterexample: under a question/answer rubric, a parsed document that
lacks the cells collection is graded normally: the result lists every rubric
section (non-empty sections mapping) and carries no explanatory message. -/
theorem invalid_input_qa_cx :
    (grade_notebook cfgQ RawInput.noCellsKey).sections = [("1.", SecScore.plain 0)] ∧
    (grade_notebook cfgQ RawInput.noCellsKey).total_points = 0 ∧
    (grade_notebook cfgQ RawInput.noCellsKey).issues = [] := by
  decide

/-- C6 amended: unparsable input always yields the empty recovery result with
zero points and an explanatory message, and so does a parsed document lacking
the cells collection whenever the selected grading path is not the
question/answer variant (which instead grades an empty cell list); either
way no exception escapes the wrapper. -/
theorem invalid_input_error_result (cfg : ExpectedConfig) (m : String)
    (hq : selectGrader cfg.sections ≠ some SpecialPath.qa) :
    ((grade_notebook cfg (RawInput.unparsable m)).sections = [] ∧
     (grade_notebook cfg (RawInput.unparsable m)).total_points = 0 ∧
     (grade_notebook cfg (RawInput.unparsable m)).issues ≠ []) ∧
    ((grade_notebook cfg RawInput.noCellsKey).sections = [] ∧
     (grade_notebook cfg RawInput.noCellsKey).total_points = 0 ∧
     (grade_notebook cfg RawInput.noCellsKey).issues ≠ []) := by
  constructor
  · exact ⟨rfl, rfl, by simp [grade_notebook, errorResult]⟩
  · cases hsel : selectGrader cfg.sections with
    | none => simp [grade_notebook, hsel, errorResult]
    | some p =>
      cases p with
      | qa => exact absurd hsel hq
      | mdex => simp [grade_notebook, hsel, errorResult]

/-- Witness for the amended C6 at a rubric with no special sections. -/
theorem invalid_input_error_result_witness :
    (((grade_notebook cfgW (RawInput.unparsable "bad json")).sections = [] ∧
      (grade_notebook cfgW (RawInput.unparsable "bad json")).total_points = 0 ∧
      (grade_notebook cfgW (RawInput.unparsable "bad json")).issues ≠ []) ∧
     ((grade_notebook cfgW RawInput.noCellsKey).sections = [] ∧
      (grade_notebook cfgW RawInput.noCellsKey).total_points = 0 ∧
      (grade_notebook cfgW RawInput.noCellsKey).issues ≠ [])) :=
  invalid_input_error_result cfgW "bad json" (by decide)

/-- C7: grading is a pure function of the document and rubric: within the
orchestration fold, the result at every position depends only on that one
document, and grading the same document twice in a row yields two identical
results. -/
theorem grading_pure_independent :
    (∀ (cfg : ExpectedConfig) (docs : List RawInput) (i : Nat),
      (gradeSequence cfg docs).1.get? i = (docs.get? i).map (fun d => grade_notebook cfg d)) ∧
    (∀ (cfg : ExpectedConfig) (d : RawInput),
      (gradeSequence cfg [d, d]).1 = [grade_notebook cfg d, grade_notebook cfg d]) := by
  constructor
  · intro cfg docs
    induction docs with
    | nil => intro i; cases i <;> rfl
    | cons d ds ih =>
      intro i
      cases i with
      | zero => rfl
      | succ n => exact ih n
  · intro cfg d
    rfl

/-! ## Lemmas about the markdown-exercise variant -/

lemma mdexInitSec_missedVals (k : String) (st : MdexState)
    (h : ∀ q, st.missedVals q = []) : ∀ q, (mdexInitSec k st).missedVals q = [] := by
  intro q
  unfold mdexInitSec
  split
  · exact h q
  · simp [updFn, h q]

lemma mdexHeader_missedVals (st : MdexState) (cell : Cell)
    (h : ∀ q, st.missedVals q = []) : ∀ q, (mdexHeader st cell).missedVals q = [] := by
  intro q
  unfold mdexHeader
  split
  · split
    · next k2 _ =>
      exact mdexInitSec_missedVals k2 { st with cur := some k2 } (fun r => h r) q
    · exact h q
  · exact h q

lemma mdexCount_missedVals (R : Rubric) (st : MdexState) (cell : Cell)
    (h : ∀ q, st.missedVals q = []) : ∀ q, (mdexCount R st cell).missedVals q = [] := by
  intro q
  unfold mdexCount
  cases hc : st.cur with
  | none => exact h q
  | some k =>
    dsimp only
    split_ifs <;> simp [updFn, h q]

lemma stepMdex1_missedVals (R : Rubric) (st : MdexState) (cell : Cell)
    (h : ∀ q, st.missedVals q = []) : ∀ q, (stepMdex1 R st cell).missedVals q = [] :=
  mdexCount_missedVals R _ cell (mdexHeader_missedVals st cell h)

lemma mdexPass1From_missedVals (R : Rubric) :
    ∀ (cells : List Cell) (st : MdexState), (∀ q, st.missedVals q = []) →
      ∀ q, (List.foldl (stepMdex1 R) st cells).missedVals q = [] := by
  intro cells
  induction cells with
  | nil => intro st h; exact h
  | cons c cs ih =>
    intro st h
    exact ih (stepMdex1 R st c) (stepMdex1_missedVals R st c h)

lemma mdexPass1_missedVals (R : Rubric) (cells : List Cell) :
    ∀ q, (mdexPass1 R cells).missedVals q = [] :=
  mdexPass1From_missedVals R cells mdexInit (fun _ => rfl)

lemma applyPass2_missedVals (cells : List Cell) (st : MdexState)
    (h : ∀ q, st.missedVals q = []) : ∀ q, (applyPass2 cells st).missedVals q = [] := by
  intro q
  unfold applyPass2
  split
  · split
    · split
      · split
        · split
          · simp [updFn, h q]
          · exact h q
        · exact h q
      · simp [updFn, h q]
    · exact h q
  · exact h q

lemma applyPass2_completed (cells : List Cell) (st : MdexState) (k : String)
    (hcur : st.cur = some k) :
    (applyPass2 cells st).completed k =
      st.completed k + (if mdexGrantAt cells st then 1 else 0) := by
  unfold applyPass2 mdexGrantAt
  cases hT : findTriggerIdx cells with
  | none => simp
  | some n =>
    cases n with
    | zero => simp
    | succ i =>
      dsimp only
      cases hG : cells.get? i with
      | none => simp [hcur]
      | some pc =>
        simp only [hcur]
        by_cases hok : (pc.cell_type == "markdown" && has_content pc) = true
        · rw [if_pos hok]
          by_cases hcc : st.codeCompleted k > 0
          · rw [if_pos hcc]
            simp [updFn, hok, hcc]
          · rw [if_neg hcc]
            simp [hok, hcc]
        · rw [if_neg hok]
          have hokF : (pc.cell_type == "markdown" && has_content pc) = false :=
            Bool.eq_false_iff.mpr hok
          simp [hokF]

/-- C8: in the markdown-exercise variant, the exercise unit is granted (the
tracked section's completed count bumped by one) exactly when the
instructional sentence is found in a markdown cell at a positive index, the
previous cell is a completed markdown cell, and a code cell of the tracked
section was already completed; and every missed list in the scan is left
empty, so no miss is ever recorded. -/
theorem mdex_exercise_grant :
    (∀ (R : Rubric) (cells : List Cell) (k : String),
      (mdexPass1 R cells).cur = some k →
      (mdexScanFull R cells).completed k =
        (mdexPass1 R cells).completed k + (if mdexGrant R cells then 1 else 0)) ∧
    (∀ (R : Rubric) (cells : List Cell) (q : Option String),
      (mdexScanFull R cells).missedVals q = []) := by
  constructor
  · intro R cells k hcur
    exact applyPass2_completed cells (mdexPass1 R cells) k hcur
  · intro R cells q
    exact applyPass2_missedVals cells (mdexPass1 R cells) (mdexPass1_missedVals R cells) q

/-- Witness for C8 at a concrete markdown-exercise document where the grant
fires. -/
theorem mdex_exercise_grant_witness :
    ((mdexScanFull RW8 cells8).completed "1." =
      (mdexPass1 RW8 cells8).completed "1." + (if mdexGrant RW8 cells8 then 1 else 0)) ∧
    (mdexScanFull RW8 cells8).missedVals (some "1.") = [] :=
  ⟨mdex_exercise_grant.1 RW8 cells8 "1." (by decide),
   mdex_exercise_grant.2 RW8 cells8 (some "1.")⟩

/-- C9: in the question/answer variant, a cell in an active rubric-known
section whose trimmed text begins with "Question" but contains no colon bumps
the section's unit counter while leaving both the completed count and the
missed list untouched; consequently, on a concrete document the completed
count plus the missed-list length is strictly below the counted units. -/
theorem qa_question_no_colon :
    (∀ (R : Rubric) (st : QaState) (cell : Cell) (k : String),
      st.cur = some k → keyMem k R = true →
      leadsWith qtoken (cellText cell) = true →
      afterColon (cellText cell) = none →
      (cell.cell_type = "markdown" → firstVariantHeader (splitLines (cellText cell)) = none) →
      (stepQa R st cell).counts k = st.counts k + 1 ∧
      (stepQa R st cell).completed k = st.completed k ∧
      (stepQa R st cell).missedVals k = st.missedVals k) ∧
    (scanQa RQ cellsQ).completed "1." + ((scanQa RQ cellsQ).missedVals "1.").length <
      (scanQa RQ cellsQ).counts "1." := by
  constructor
  · intro R st cell k hcur hkR hq hnc hhd
    have hH : qaHeader st cell = st := by
      unfold qaHeader
      by_cases hmd : (cell.cell_type == "markdown") = true
      · rw [if_pos hmd, hhd (eq_of_beq hmd)]
      · rw [if_neg hmd]
    unfold stepQa
    rw [hH]
    simp only [qaCount, hcur]
    rw [if_pos hkR, if_pos hq]
    simp only [hnc]
    refine ⟨?_, ?_, ?_⟩ <;> simp [updFn]
  · decide

/-- Witness for C9: a no-colon Question cell under an active section. -/
theorem qa_question_no_colon_witness :
    ((stepQa RQ { qaInit with cur := some "1." }
        (mdCell "Question with no separator at all")).counts "1." =
      ({ qaInit with cur := some "1." } : QaState).counts "1." + 1) ∧
    ((stepQa RQ { qaInit with cur := some "1." }
        (mdCell "Question with no separator at all")).completed "1." =
      ({ qaInit with cur := some "1." } : QaState).completed "1.") ∧
    ((stepQa RQ { qaInit with cur := some "1." }
        (mdCell "Question with no separator at all")).missedVals "1." =
      ({ qaInit with cur := some "1." } : QaState).missedVals "1.") :=
  qa_question_no_colon.1 RQ { qaInit with cur := some "1." }
    (mdCell "Question with no separator at all") "1." rfl (by decide) (by decide)
    (by decide) (fun _ => by decide)

lemma firstVariantHeader_head (lines : List (List Char)) :
    firstVariantHeader lines = (lines.filterMap variantHeaderOfLine).head? := by
  induction lines with
  | nil => rfl
  | cons l rest ih =>
    unfold firstVariantHeader
    cases hv : variantHeaderOfLine l with
    | some k => simp [List.filterMap_cons, hv]
    | none => simp [List.filterMap_cons, hv, ih]

/-- C10: in both specialized variants the header selection of a cell is the
first matching line (the loop breaks there), while the default path keeps
the last matching header: on a markdown cell carrying the header lines `1.`
and then `2.`, the markdown-exercise and question/answer steps set the
current section to `1.`, whereas the enhanced header handling sets it to
`2.`. -/
theorem variant_first_header_wins :
    (∀ lines : List (List Char),
      firstVariantHeader lines = (lines.filterMap variantHeaderOfLine).head?) ∧
    (stepMdex1 [] mdexInit twoHdrCell).cur = some "1." ∧
    (stepQa [] qaInit twoHdrCell).cur = some "1." ∧
    (headerUpdate false [] enhInit (joinedSource twoHdrCell)).cur = some "2." :=
  ⟨firstVariantHeader_head, by decide, by decide, by decide⟩
